import Mathlib

/-!
Verification of the CloudPrivs AWS scan engine
(`cloudprivs/providers/aws/service.py` and `cloudprivs/providers/aws/cli.py`).

The shallow embedding below models the pieces of the program the claims are
about:

* `testPermission` embeds `Service.test_permission`: the outcome of one probe
  of one operation against one regional client.  The behaviour of the remote
  AWS endpoint is modelled by an `InvokeResult` value: what the `boto3` call
  `getattr(client, operation)(*args, **kwargs)` does (return normally, raise a
  `ParamValidationError` / `NoAuthTokenError`, raise a `ClientError` carrying a
  machine-readable code, or raise one of the exception classes that
  `test_permission` does not catch and therefore propagates).
* `collectResults` / `testAllOperations` embed the collection loop of
  `Service.test_all_operations`: timeouts and unexpected exceptions are
  dropped, an `AttributeError` is re-raised (`raise e`).
* `scanCollect` / `scanAggregate` / `scan` embed `Service.scan`: results of all
  clients are concatenated and folded into a dict keyed by operation name
  (a Python `dict` is embedded as an association list with insertion order,
  `insertAgg` updating an existing key in place).
* `resolveRegions` / `serviceInit` embed the region handling of
  `Service.__init__`, and `scanService` embeds the `scan_service` wrapper from
  the CLI module which turns `InvalidRegionError` into a report line.
* `getCustomArgs` embeds `Service._get_custom_args`; a YAML rule body is a
  Python dict that may lack the `args` / `kwargs` keys, so the two fields are
  `Option`s (`none` = key absent, access raises `KeyError`; `some []` covers
  both an empty and a `null` value, which are equally falsy in the code).
* `prettyPrintScan` embeds `Service.pretty_print_scan`; the Python `set` of
  regions of an outcome list is embedded as the deduplicated list of regions
  (`List.dedup`) together with its `Finset` for the set comparisons.

The environment of a scan is modelled by a function
`invoke : String → String → InvokeResult` giving, per operation name and
region, the behaviour of the corresponding client call; a given client/region
pair behaves deterministically, which matches one fixed remote state.
-/

namespace CloudPrivs

/-- Embeds the `TestStatus` enum of `service.py`. -/
inductive TestStatus
  | SUCCEEDED
  | FAILED
  | ERRORED
deriving DecidableEq, Repr

/-- Exception classes raised by a probe that `test_permission` does NOT catch
(they escape to the collection loop of `test_all_operations`). -/
inductive RaisedKind
  | connectTimeout
  | endpointConnection
  | attributeError
  | otherException
deriving DecidableEq, Repr

/-- Behaviour of the underlying `boto3` client call for one probe. -/
inductive InvokeResult
  | ok (response : String)
  | paramValidationError
  | noAuthTokenError
  | clientError (code : String)
  | raised (kind : RaisedKind)
deriving DecidableEq, Repr

/-- Embeds the `OperationPermissions` dataclass. -/
structure OperationPermissions where
  name : String
  region : String
  status : TestStatus
  results : Option String
  error : Option InvokeResult
deriving DecidableEq, Repr

/-- Embeds the `OperationPermissionsByRegion` dataclass: `regions_tested` is a
Python `set`, the three outcome fields are Python lists of
`OperationPermissions`. -/
structure OperationPermissionsByRegion where
  name : String
  regions_tested : Finset String
  succeeded : List OperationPermissions
  failed : List OperationPermissions
  errored : List OperationPermissions
deriving DecidableEq

/-- The global pseudo-region string used throughout `Service.__init__`. -/
def AWS_GLOBAL : String := "aws-global"

/-- Embeds the Python substring test `needle in hay`. -/
def strContains (hay needle : String) : Bool :=
  decide (needle.toList <:+: hay.toList)

/-- Embeds the region resolution of `Service.__init__` (lines 109-129):
start from `session.get_available_regions(service)`, fall back to
`["aws-global"]` when that list is empty, and when a region filter list was
given, append `"aws-global"` to it and keep each available region once per
filter entry that occurs in the region name as a substring. -/
def resolveRegions (availableRegions regionFilters : List String) : List String :=
  let regions0 := if availableRegions.isEmpty then [AWS_GLOBAL] else availableRegions
  if regionFilters.isEmpty then regions0
  else
    let fs := regionFilters ++ [AWS_GLOBAL]
    regions0.flatMap (fun region => (fs.filter (fun f => strContains region f)).map (fun _ => region))

/-- Embeds the tail of `Service.__init__` (lines 131-142): one client per
resolved region, or `InvalidRegionError(service, regions)` when the resolved
list is empty (`regions` being the filter list, to which `"aws-global"` has
been appended whenever the filter list was non-empty). -/
def serviceInit (service : String) (availableRegions regionFilters : List String) :
    Except (String × List String) (List String) :=
  let resolved := resolveRegions availableRegions regionFilters
  if resolved.length > 0 then Except.ok resolved
  else Except.error (service, if regionFilters.isEmpty then regionFilters else regionFilters ++ [AWS_GLOBAL])

/-- Embeds `Service.test_permission` (lines 154-196).  `Except.error` is an
exception escaping the function (none of its handlers match). -/
def testPermission (operation : String) (clientRegion : String) (call : InvokeResult) :
    Except RaisedKind OperationPermissions :=
  match call with
  | .ok resp =>
      Except.ok ⟨operation, clientRegion, .SUCCEEDED, some resp, none⟩
  | .paramValidationError =>
      Except.ok ⟨operation, clientRegion, .ERRORED, none, some .paramValidationError⟩
  | .noAuthTokenError =>
      Except.ok ⟨operation, clientRegion, .ERRORED, none, some .noAuthTokenError⟩
  | .clientError code =>
      if code ≠ "ClientError" then
        Except.ok ⟨operation, clientRegion, .SUCCEEDED, none, some (.clientError code)⟩
      else
        Except.ok ⟨operation, clientRegion, .FAILED, none, some (.clientError code)⟩
  | .raised kind => Except.error kind

/-- Embeds the collection loop of `Service.test_all_operations`
(lines 255-286): `ConnectTimeoutError` / `EndpointConnectionError` are dropped
with a warning, an `AttributeError` is re-raised (`raise e`), any other
exception is logged and dropped. -/
def collectResults :
    List (Except RaisedKind OperationPermissions) → Except Unit (List OperationPermissions)
  | [] => Except.ok []
  | x :: rest =>
    match x with
    | .ok p =>
      match collectResults rest with
      | .ok l => Except.ok (p :: l)
      | .error e => Except.error e
    | .error .connectTimeout => collectResults rest
    | .error .endpointConnection => collectResults rest
    | .error .attributeError => Except.error ()
    | .error .otherException => collectResults rest

/-- Embeds `Service.test_all_operations` for one client: probe every
operation, then run the collection loop. -/
def testAllOperations (invoke : String → String → InvokeResult)
    (operations : List String) (clientRegion : String) :
    Except Unit (List OperationPermissions) :=
  collectResults (operations.map (fun op => testPermission op clientRegion (invoke op clientRegion)))

/-- Embeds the gathering phase of `Service.scan` (lines 297-305): concatenate
the result lists of all clients; an exception escaping
`test_all_operations` escapes `scan` as well (there is no handler). -/
def scanCollect (invoke : String → String → InvokeResult)
    (regions operations : List String) : Except Unit (List OperationPermissions) :=
  match regions with
  | [] => Except.ok []
  | r :: rest =>
    match testAllOperations invoke operations r with
    | .error e => Except.error e
    | .ok l1 =>
      match scanCollect invoke rest operations with
      | .error e => Except.error e
      | .ok l2 => Except.ok (l1 ++ l2)

/-- One step of the translation loop of `Service.scan` (lines 308-336) on the
aggregate of a single operation name: add the region to `regions_tested` and
append the result to the list matching its status. -/
def updAgg (p : OperationPermissions) (a : OperationPermissionsByRegion) :
    OperationPermissionsByRegion :=
  let a1 : OperationPermissionsByRegion := { a with regions_tested := insert p.region a.regions_tested }
  match p.status with
  | .SUCCEEDED => { a1 with succeeded := a1.succeeded ++ [p] }
  | .FAILED => { a1 with failed := a1.failed ++ [p] }
  | .ERRORED => { a1 with errored := a1.errored ++ [p] }

/-- The fresh `OperationPermissionsByRegion` created on first sight of an
operation name in `Service.scan`. -/
def emptyAgg (name : String) : OperationPermissionsByRegion :=
  ⟨name, ∅, [], [], []⟩

/-- One iteration of the translation loop of `Service.scan` on the whole
dict, embedded as an insertion-ordered association list. -/
def insertAgg :
    List (String × OperationPermissionsByRegion) → OperationPermissions →
      List (String × OperationPermissionsByRegion)
  | [], p => [(p.name, updAgg p (emptyAgg p.name))]
  | (k, a) :: rest, p =>
    if k == p.name then (k, updAgg p a) :: rest
    else (k, a) :: insertAgg rest p

/-- The translation loop of `Service.scan`: fold all collected
`OperationPermissions` into the per-operation dict. -/
def scanAggregate (l : List OperationPermissions) :
    List (String × OperationPermissionsByRegion) :=
  l.foldl insertAgg []

/-- Embeds `Service.scan` end to end. -/
def scan (invoke : String → String → InvokeResult) (regions operations : List String) :
    Except Unit (List (String × OperationPermissionsByRegion)) :=
  match scanCollect invoke regions operations with
  | .error e => Except.error e
  | .ok l => Except.ok (scanAggregate l)

/-- Python dict lookup on the embedded per-operation dict. -/
def aggLookup : List (String × OperationPermissionsByRegion) → String →
    Option OperationPermissionsByRegion
  | [], _ => none
  | (k, a) :: rest, name => if k == name then some a else aggLookup rest name

/-- The set of regions appearing in a list of results (the Python expression
`set(test.region for test in test_results)`). -/
def regionsOf (ps : List OperationPermissions) : Finset String :=
  (ps.map (fun p => p.region)).toFinset

/-- Region set recorded as tested for an operation name by a scan dict
(`∅` when the operation is absent). -/
def testedSet (m : List (String × OperationPermissionsByRegion)) (name : String) :
    Finset String :=
  match aggLookup m name with
  | none => ∅
  | some a => a.regions_tested

/-- Region set that succeeded for an operation name in a scan dict. -/
def succeededSet (m : List (String × OperationPermissionsByRegion)) (name : String) :
    Finset String :=
  match aggLookup m name with
  | none => ∅
  | some a => regionsOf a.succeeded

/-- Region set that failed for an operation name in a scan dict. -/
def failedSet (m : List (String × OperationPermissionsByRegion)) (name : String) :
    Finset String :=
  match aggLookup m name with
  | none => ∅
  | some a => regionsOf a.failed

/-- Region set that errored for an operation name in a scan dict. -/
def erroredSet (m : List (String × OperationPermissionsByRegion)) (name : String) :
    Finset String :=
  match aggLookup m name with
  | none => ∅
  | some a => regionsOf a.errored

/-- Body of a YAML override rule (`_get_custom_args`): a Python dict that may
lack either key.  `none` = key absent (subscripting raises `KeyError`);
`some []` = key present with an empty or `null` (falsy) value. -/
structure RuleBody where
  args : Option (List Nat)
  kwargs : Option (List (String × Nat))
deriving DecidableEq, Repr

/-- Lookup of the rule list of a service in the `injected_args` dict. -/
def lookupService (injected : List (String × List (String × RuleBody))) (service : String) :
    Option (List (String × RuleBody)) :=
  (injected.find? (fun kv => kv.1 == service)).map (fun kv => kv.2)

/-- The rule scan loop of `Service._get_custom_args` (lines 221-231): first
rule whose pattern occurs in the operation name wins; its `kwargs` and `args`
entries are then subscripted unconditionally, so an absent key raises
`KeyError` (`Except.error`), while a falsy value just leaves the accumulated
empty default in place. -/
def scanRules (operation : String) :
    List (String × RuleBody) → Except Unit (List Nat × List (String × Nat))
  | [] => Except.ok ([], [])
  | (pat, body) :: rest =>
    if strContains operation pat then
      match body.kwargs, body.args with
      | some kw, some ar => Except.ok (ar, kw)
      | none, _ => Except.error ()
      | some _, none => Except.error ()
    else scanRules operation rest

/-- Embeds `Service._get_custom_args` (lines 198-232). -/
def getCustomArgs (injected : List (String × List (String × RuleBody)))
    (service operation : String) : Except Unit (List Nat × List (String × Nat)) :=
  match lookupService injected service with
  | none => Except.ok ([], [])
  | some rules => scanRules operation rules

/-- The lines emitted by `Service.pretty_print_scan` for one marker of one
operation (lines 362-368): nothing when the outcome region set is empty, the
`All Regions` form when it equals `regions_tested`, the comma-joined region
list otherwise. -/
def markerBlock (operation marker : String) (tests : List OperationPermissions)
    (tested : Finset String) : List String :=
  let regions := (tests.map (fun t => t.region)).dedup
  if regions.isEmpty then []
  else if regions.toFinset = tested then
    ["[" ++ marker ++ "] " ++ operation ++ " - All Regions"]
  else
    ["[" ++ marker ++ "] " ++ operation ++ " - " ++ String.intercalate "," regions]

/-- The lines emitted by `Service.pretty_print_scan` for one dict entry:
the marker map is `{"+"}` when `only_hits` else `{"+", "-", "!"}`. -/
def prettyEntry (kv : String × OperationPermissionsByRegion) (only_hits : Bool) :
    List String :=
  let mm :=
    if only_hits then [("+", kv.2.succeeded)]
    else [("+", kv.2.succeeded), ("-", kv.2.failed), ("!", kv.2.errored)]
  mm.flatMap (fun mt => markerBlock kv.1 mt.1 mt.2 kv.2.regions_tested)

/-- Embeds `Service.pretty_print_scan` (lines 342-370). -/
def prettyPrintScan (scan_results : List (String × OperationPermissionsByRegion))
    (only_hits : Bool) : List String :=
  scan_results.flatMap (fun kv => prettyEntry kv only_hits)

/-- Embeds the `scan_service` helper of `cloudprivs/providers/aws/cli.py`
(lines 14-33): run a full service scan, but catch `InvalidRegionError` and
replace the scan output by an unavailability line. -/
def scanService (service : String) (availableRegions regionFilters : List String)
    (invoke : String → String → InvokeResult) (operations : List String)
    (only_hits : Bool) : Except Unit (List String) :=
  match serviceInit service availableRegions regionFilters with
  | .error _ =>
      Except.ok ["=== " ++ service ++ " ===",
        "[!] Service: " ++ service ++ " is not available in the regions supplied"]
  | .ok regions =>
    match scanCollect invoke regions operations with
    | .error e => Except.error e
    | .ok entries =>
      Except.ok (("=== " ++ service ++ " ===") :: prettyPrintScan (scanAggregate entries) only_hits)

/-- The dispatch universe of `Service.scan`: one probe per operation per
client (a client is identified by its region string; a duplicated region in
the resolved list yields a separate client). -/
def probeList (regions operations : List String) : List (String × String) :=
  regions.flatMap (fun r => operations.map (fun op => (op, r)))


/-- Formatter lines for one outcome of one operation, written from the words
of the specification (claim C9): exactly one line when the outcome region set
is non-empty, the `All Regions` form when it equals `regions_tested`, else the
comma-joined region list. -/
def specOutcomeLines (operation marker : String) (outcome : List OperationPermissions)
    (tested : Finset String) : List String :=
  if regionsOf outcome = ∅ then []
  else if regionsOf outcome = tested then
    ["[" ++ marker ++ "] " ++ operation ++ " - All Regions"]
  else
    ["[" ++ marker ++ "] " ++ operation ++ " - "
      ++ String.intercalate "," ((outcome.map (fun t => t.region)).dedup)]

/-- The whole formatter output, written from the words of the specification
(claim C9): for each operation, the `+` marker always, the `-` and `!` markers
only when non-successes are requested. -/
def specFormat (report : List (String × OperationPermissionsByRegion))
    (includeNonSuccesses : Bool) : List String :=
  report.flatMap (fun kv =>
    specOutcomeLines kv.1 "+" kv.2.succeeded kv.2.regions_tested
      ++ (if includeNonSuccesses then
            specOutcomeLines kv.1 "-" kv.2.failed kv.2.regions_tested
              ++ specOutcomeLines kv.1 "!" kv.2.errored kv.2.regions_tested
          else []))

/-- The example rule table of the claim: a specific rule above a generic
catch-all. -/
def exInjected : List (String × List (String × RuleBody)) :=
  [("svc", [("describe_specific", ⟨some [1], some [("a", 1)]⟩),
            ("describe", ⟨some [2], some [("a", 2)]⟩)])]

/-- A rule whose body omits the keyword-args entry. -/
def exOmitted : List (String × List (String × RuleBody)) :=
  [("svc", [("describe", ⟨some [1], none⟩)])]

/-- Concrete probe results used as witnesses: a success and a failure of the
same operation in two regions. -/
def exP : OperationPermissions := ⟨"get_x", "us-east-1", .SUCCEEDED, none, none⟩

/-- See `exP`. -/
def exQ : OperationPermissions := ⟨"get_x", "eu-west-1", .FAILED, none, none⟩

/-- An environment in which every call returns normally. -/
def invokeOkX : String → String → InvokeResult := fun _ _ => .ok "x"

/-- The aggregate the scan of `invokeOkX` over one region and one operation
produces. -/
def exAgg : OperationPermissionsByRegion :=
  ⟨"get_x", insert "us-east-1" ∅, [⟨"get_x", "us-east-1", .SUCCEEDED, some "x", none⟩], [], []⟩

end CloudPrivs

namespace CloudPrivs

/-! ## Claim C1: outcome classification of a single probe -/

/-- Claim C1: for one probe of one operation against one regional client, a
call returning normally yields `SUCCEEDED` with the raw response stored; a
`ParamValidationError` or `NoAuthTokenError` yields `ERRORED`; a `ClientError`
whose code differs from the generic `"ClientError"` yields `SUCCEEDED` with
the error stored as context; a `ClientError` with the generic code yields
`FAILED`. -/
theorem C1_test_permission_classification
    (operation clientRegion resp code : String) :
    (testPermission operation clientRegion (.ok resp)
      = Except.ok ⟨operation, clientRegion, .SUCCEEDED, some resp, none⟩)
    ∧ (testPermission operation clientRegion .paramValidationError
      = Except.ok ⟨operation, clientRegion, .ERRORED, none, some .paramValidationError⟩)
    ∧ (testPermission operation clientRegion .noAuthTokenError
      = Except.ok ⟨operation, clientRegion, .ERRORED, none, some .noAuthTokenError⟩)
    ∧ (code ≠ "ClientError" →
      testPermission operation clientRegion (.clientError code)
        = Except.ok ⟨operation, clientRegion, .SUCCEEDED, none, some (.clientError code)⟩)
    ∧ (testPermission operation clientRegion (.clientError "ClientError")
      = Except.ok ⟨operation, clientRegion, .FAILED, none, some (.clientError "ClientError")⟩) := by
  refine ⟨rfl, rfl, rfl, fun h => ?_, ?_⟩
  · simp [testPermission, h]
  · simp [testPermission]

/-- Witness for C1 at concrete inputs, discharging the hypothesis of the
fourth conjunct with the non-generic code `"AccessDenied"`. -/
theorem C1_test_permission_classification_witness :
    testPermission "get_caller_identity" "us-east-1" (.clientError "AccessDenied")
      = Except.ok ⟨"get_caller_identity", "us-east-1", .SUCCEEDED, none,
          some (.clientError "AccessDenied")⟩ :=
  (C1_test_permission_classification "get_caller_identity" "us-east-1" "r" "AccessDenied").2.2.2.1
    (by decide)

/-! ## Claim C5: dropped probes in the collection loop -/

/-- Claim C5 (code behaviour at the failing input): a timed-out or unreachable
probe, and a probe raising an unrecognized exception, are dropped from the
collected results (and hence never reach `regions_tested`), but a probe
raising `AttributeError` makes the whole collection raise instead of being
logged and excluded; the final conjunct shows a timed-out region absent from
the aggregate while the scan itself survives. -/
theorem C5_collect_drops_and_attribute_error_fatal :
    collectResults [Except.error .connectTimeout] = Except.ok []
    ∧ collectResults [Except.error .endpointConnection] = Except.ok []
    ∧ collectResults [Except.error .otherException] = Except.ok []
    ∧ collectResults [Except.error .attributeError] = Except.error ()
    ∧ testAllOperations (fun _ _ => .raised .attributeError) ["get_x"] "us-east-1"
        = Except.error ()
    ∧ scan (fun _ r => if r == "eu-west-1" then .raised .connectTimeout else .ok "x")
        ["us-east-1", "eu-west-1"] ["get_x"]
      = Except.ok [("get_x",
          ⟨"get_x", insert "us-east-1" ∅,
            [⟨"get_x", "us-east-1", .SUCCEEDED, some "x", none⟩], [], []⟩)] :=
  ⟨rfl, rfl, rfl, rfl, rfl, rfl⟩

/-! ## Claim C3: region resolution -/

/-- Claim C3 counterexample: with available regions
`["us-east-1", "eu-west-1", "global"]` and filter `["us"]` the code resolves
to `["us-east-1"]` only — the claimed `{"us-east-1", "global"}` is wrong
because the pseudo-region the code keeps in scope is the string
`"aws-global"`, not `"global"`; and the region `"xaws-globaly"`, which equals
no pseudo-region and has no filter of `["zz"]` as a substring, is nevertheless
included, because the code tests `"aws-global" in region` as a substring, not
equality. -/
theorem C3_region_resolution_counterexample :
    resolveRegions ["us-east-1", "eu-west-1", "global"] ["us"] = ["us-east-1"]
    ∧ "global" ∉ resolveRegions ["us-east-1", "eu-west-1", "global"] ["us"]
    ∧ resolveRegions ["xaws-globaly"] ["zz"] = ["xaws-globaly"] := by
  refine ⟨by decide, ?_, by decide⟩
  intro h
  have : resolveRegions ["us-east-1", "eu-west-1", "global"] ["us"] = ["us-east-1"] := by decide
  rw [this] at h
  simp at h

/-- Membership in the filtered region list, for a non-empty filter list. -/
theorem mem_resolveRegions (availableRegions regionFilters : List String)
    (hf : regionFilters ≠ []) (r : String) :
    r ∈ resolveRegions availableRegions regionFilters ↔
      r ∈ (if availableRegions.isEmpty then [AWS_GLOBAL] else availableRegions)
        ∧ (strContains r AWS_GLOBAL = true ∨ ∃ f ∈ regionFilters, strContains r f = true) := by
  unfold resolveRegions
  rw [if_neg (by simp [List.isEmpty_iff, hf])]
  simp only [List.mem_flatMap, List.mem_map, List.mem_filter, List.mem_append,
    List.mem_singleton]
  constructor
  · rintro ⟨region, hreg, f, ⟨hf1, hf2⟩, rfl⟩
    refine ⟨hreg, ?_⟩
    rcases hf1 with hf1 | rfl
    · exact Or.inr ⟨f, hf1, hf2⟩
    · exact Or.inl hf2
  · rintro ⟨hreg, hsub | ⟨f, hf1, hf2⟩⟩
    · exact ⟨r, hreg, AWS_GLOBAL, ⟨Or.inr rfl, hsub⟩, rfl⟩
    · exact ⟨r, hreg, f, ⟨Or.inl hf1, hf2⟩, rfl⟩

/-- Claim C3 as amended: (1) with no available regions the resolved set is
exactly the singleton `{"aws-global"}` whatever the filters; (2) with an empty
filter list the available regions are returned unchanged; (3) with a non-empty
filter list, a region is kept iff the pseudo-region name `"aws-global"` occurs
in it as a substring (substring, not equality) or some filter string does;
(4) resolving `["us-east-1", "eu-west-1", "aws-global"]` — the pseudo-region
spelled as the code spells it — with filter `["us"]` yields
`{"us-east-1", "aws-global"}`. -/
theorem C3_region_resolution_amended (availableRegions regionFilters : List String)
    (r : String) :
    (resolveRegions [] regionFilters).toFinset = {AWS_GLOBAL}
    ∧ (availableRegions ≠ [] → resolveRegions availableRegions [] = availableRegions)
    ∧ (regionFilters ≠ [] →
        (r ∈ resolveRegions availableRegions regionFilters ↔
          r ∈ (if availableRegions.isEmpty then [AWS_GLOBAL] else availableRegions)
            ∧ (strContains r AWS_GLOBAL = true ∨ ∃ f ∈ regionFilters, strContains r f = true)))
    ∧ (resolveRegions ["us-east-1", "eu-west-1", AWS_GLOBAL] ["us"]).toFinset
        = {"us-east-1", AWS_GLOBAL} := by
  refine ⟨?_, ?_, fun hf => mem_resolveRegions availableRegions regionFilters hf r, by decide⟩
  · by_cases hf : regionFilters = []
    · subst hf; decide
    · ext x
      rw [List.mem_toFinset, mem_resolveRegions [] regionFilters hf x]
      simp only [List.isEmpty_nil, if_pos, List.mem_singleton, Finset.mem_singleton]
      constructor
      · rintro ⟨rfl, _⟩; rfl
      · rintro rfl
        exact ⟨rfl, Or.inl (by decide)⟩
  · intro ha
    simp [resolveRegions, List.isEmpty_iff, ha]

/-- Witness for C3 (amended) at concrete inputs, discharging both
hypotheses. -/
theorem C3_region_resolution_amended_witness :
    resolveRegions ["us-east-1"] [] = ["us-east-1"]
    ∧ "us-east-1" ∈ resolveRegions ["us-east-1", "eu-west-1", AWS_GLOBAL] ["us"] := by
  constructor
  · exact (C3_region_resolution_amended ["us-east-1"] [] "x").2.1 (by decide)
  · exact ((C3_region_resolution_amended ["us-east-1", "eu-west-1", AWS_GLOBAL] ["us"]
      "us-east-1").2.2.1 (by decide)).mpr (by decide)

/-! ## Claim C6: empty filtered region set aborts only that service -/

/-- Claim C6: when a non-empty region filter leaves no region for the service,
`Service.__init__` raises `InvalidRegionError` carrying the service name and
the filter list (with the always-appended `"aws-global"`), and the CLI wrapper
`scan_service` catches it and returns normally with the unavailability line
instead of propagating. -/
theorem C6_invalid_region_error_scoped (service : String)
    (availableRegions regionFilters : List String)
    (invoke : String → String → InvokeResult) (operations : List String)
    (only_hits : Bool) (hf : regionFilters ≠ [])
    (hres : resolveRegions availableRegions regionFilters = []) :
    serviceInit service availableRegions regionFilters
      = Except.error (service, regionFilters ++ [AWS_GLOBAL])
    ∧ scanService service availableRegions regionFilters invoke operations only_hits
      = Except.ok ["=== " ++ service ++ " ===",
          "[!] Service: " ++ service ++ " is not available in the regions supplied"] := by
  have h1 : serviceInit service availableRegions regionFilters
      = Except.error (service, regionFilters ++ [AWS_GLOBAL]) := by
    unfold serviceInit
    rw [hres]
    simp [List.isEmpty_iff, hf]
  refine ⟨h1, ?_⟩
  unfold scanService
  rw [h1]

/-- Witness for C6: filter `["us"]` excludes the only available region
`"eu-west-1"`. -/
theorem C6_invalid_region_error_scoped_witness :
    serviceInit "iam" ["eu-west-1"] ["us"] = Except.error ("iam", ["us", AWS_GLOBAL])
    ∧ scanService "iam" ["eu-west-1"] ["us"] (fun _ _ => .ok "x") ["get_x"] true
      = Except.ok ["=== iam ===",
          "[!] Service: iam is not available in the regions supplied"] :=
  C6_invalid_region_error_scoped "iam" ["eu-west-1"] ["us"] (fun _ _ => .ok "x")
    ["get_x"] true (by decide) (by decide)

/-! ## Claim C10: duplicated regions are probed once per matching filter -/

/-- Counting copies produced by the inner filter loop of `Service.__init__`:
each occurrence of a region in the scanned list contributes one copy per
filter entry occurring in it as a substring. -/
theorem count_filterLoop (fs : List String) (r : String) (xs : List String) :
    (xs.flatMap (fun region =>
        (fs.filter (fun f => strContains region f)).map (fun _ => region))).count r
      = xs.count r * fs.countP (fun f => strContains r f) := by
  induction xs with
  | nil => simp
  | cons x rest ih =>
    rw [List.flatMap_cons, List.count_append, ih, List.count_cons]
    by_cases hx : x = r
    · subst hx
      have h1 : ((fs.filter (fun f => strContains x f)).map (fun _ => x)).count x
          = fs.countP (fun f => strContains x f) := by
        rw [List.count_eq_countP, List.countP_map]
        have h2 : List.countP ((fun a => a == x) ∘ fun _ => x)
              (fs.filter (fun f => strContains x f))
            = List.countP (fun _ => true) (fs.filter (fun f => strContains x f)) :=
          List.countP_congr (fun a _ => by simp)
        rw [h2, List.countP_true, ← List.countP_eq_length_filter]
      rw [h1]
      simp only [beq_self_eq_true, if_true]
      ring
    · have h0 : (((fs.filter (fun f => strContains x f)).map (fun _ => x)).count r) = 0 := by
        rw [List.count_eq_zero]
        intro h
        rcases List.mem_map.mp h with ⟨f, _, rfl⟩
        exact hx rfl
      rw [h0]
      have hxr : (x == r) = false := by simp [hx]
      rw [hxr]
      simp

/-- Counting probe invocations in the dispatch universe: one per occurrence of
the region in the client list and occurrence of the operation in the
operation list. -/
theorem count_probeList (regions operations : List String) (op r : String) :
    (probeList regions operations).count (op, r)
      = regions.count r * operations.count op := by
  induction regions with
  | nil => simp [probeList]
  | cons x rest ih =>
    rw [probeList, List.flatMap_cons, List.count_append, ← probeList, ih, List.count_cons]
    by_cases hx : x = r
    · subst hx
      have h1 : ((operations.map (fun o => (o, x))).count (op, x))
          = operations.count op := by
        rw [List.count_eq_countP, List.countP_map, List.count_eq_countP]
        exact List.countP_congr (fun o _ => by
          simp only [Function.comp_apply, beq_iff_eq, Prod.mk.injEq, and_true])
      rw [h1]
      simp only [beq_self_eq_true, if_true]
      ring
    · have h0 : ((operations.map (fun o => (o, x))).count (op, r)) = 0 := by
        rw [List.count_eq_zero]
        intro h
        rcases List.mem_map.mp h with ⟨o, _, ho⟩
        exact hx (congrArg Prod.snd ho)
      rw [h0]
      have hxr : (x == r) = false := by simp [hx]
      rw [hxr]
      simp

/-- Claim C10: with a non-empty filter list, each available region is kept in
the resolved list once per filter entry occurring in it as a substring (so a
region matching two distinct filters appears twice), the scan builds one
client per copy, and every operation is probed once per copy — multiple times
against the same region. -/
theorem C10_duplicate_region_probes (availableRegions regionFilters operations : List String)
    (op r : String) (ha : availableRegions ≠ []) (hf : regionFilters ≠ []) :
    (resolveRegions availableRegions regionFilters).count r
      = availableRegions.count r
        * (regionFilters ++ [AWS_GLOBAL]).countP (fun f => strContains r f)
    ∧ (probeList (resolveRegions availableRegions regionFilters) operations).count (op, r)
      = availableRegions.count r
        * (regionFilters ++ [AWS_GLOBAL]).countP (fun f => strContains r f)
        * operations.count op := by
  have h1 : (resolveRegions availableRegions regionFilters).count r
      = availableRegions.count r
        * (regionFilters ++ [AWS_GLOBAL]).countP (fun f => strContains r f) := by
    unfold resolveRegions
    rw [if_neg (by simp [List.isEmpty_iff, hf]), if_neg (by simp [List.isEmpty_iff, ha])]
    exact count_filterLoop (regionFilters ++ [AWS_GLOBAL]) r availableRegions
  refine ⟨h1, ?_⟩
  rw [count_probeList, h1]

/-- Witness for C10: region `"us-east-1"` matches both filters `"us"` and
`"east"`, is resolved twice, and the single operation is probed twice against
it. -/
theorem C10_duplicate_region_probes_witness :
    (resolveRegions ["us-east-1"] ["us", "east"]).count "us-east-1" = 2
    ∧ (probeList (resolveRegions ["us-east-1"] ["us", "east"]) ["get_x"]).count
        ("get_x", "us-east-1") = 2 := by
  have h := C10_duplicate_region_probes ["us-east-1"] ["us", "east"] ["get_x"]
    "get_x" "us-east-1" (by decide) (by decide)
  refine ⟨?_, ?_⟩
  · rw [h.1]; decide
  · rw [h.2]; decide

/-! ## Claims C4 and C7: argument override lookup -/

/-- Rules preceding the first match are skipped by the scan loop. -/
theorem scanRules_append_of_no_match (operation : String)
    (pre rest : List (String × RuleBody))
    (h : ∀ q ∈ pre, strContains operation q.1 = false) :
    scanRules operation (pre ++ rest) = scanRules operation rest := by
  induction pre with
  | nil => rfl
  | cons q pre ih =>
    obtain ⟨pat, body⟩ := q
    have hq := h (pat, body) (List.mem_cons_self ..)
    rw [List.cons_append]
    rw [show scanRules operation ((pat, body) :: (pre ++ rest))
        = if strContains operation pat then
            (match body.kwargs, body.args with
              | some kw, some ar => Except.ok (ar, kw)
              | none, _ => Except.error ()
              | some _, none => Except.error ())
          else scanRules operation (pre ++ rest) from rfl]
    rw [hq]
    exact ih (fun q hq2 => h q (List.mem_cons_of_mem _ hq2))

/-- When no rule matches, the scan loop returns the empty defaults. -/
theorem scanRules_of_no_match (operation : String) (rules : List (String × RuleBody))
    (h : ∀ q ∈ rules, strContains operation q.1 = false) :
    scanRules operation rules = Except.ok ([], []) := by
  have := scanRules_append_of_no_match operation rules [] h
  rwa [List.append_nil] at this

/-- Claim C4: lookup scans the service's rule list in declaration order; the
first rule whose pattern occurs in the operation name as a substring supplies
its positional and keyword arguments and scanning stops there; a service
without rules, or an operation matching no rule, gets empty arguments; and the
claim's concrete example behaves as stated. -/
theorem C4_custom_args_first_match (injected : List (String × List (String × RuleBody)))
    (service operation : String) (pre post : List (String × RuleBody))
    (pat : String) (body : RuleBody) (A : List Nat) (K : List (String × Nat)) :
    (lookupService injected service = none →
      getCustomArgs injected service operation = Except.ok ([], []))
    ∧ (lookupService injected service = some (pre ++ (pat, body) :: post) →
      (∀ q ∈ pre, strContains operation q.1 = false) →
      strContains operation pat = true →
      body.args = some A → body.kwargs = some K →
      getCustomArgs injected service operation = Except.ok (A, K))
    ∧ (∀ rules, lookupService injected service = some rules →
      (∀ q ∈ rules, strContains operation q.1 = false) →
      getCustomArgs injected service operation = Except.ok ([], []))
    ∧ getCustomArgs exInjected "svc" "describe_specific_thing" = Except.ok ([1], [("a", 1)])
    ∧ getCustomArgs exInjected "svc" "describe_other" = Except.ok ([2], [("a", 2)])
    ∧ getCustomArgs exInjected "svc" "list_other" = Except.ok ([], []) := by
  refine ⟨fun h => ?_, fun h hpre hpat hA hK => ?_, fun rules h hnone => ?_, rfl, rfl, rfl⟩
  · rw [getCustomArgs, h]
  · rw [getCustomArgs, h]
    show scanRules operation (pre ++ (pat, body) :: post) = Except.ok (A, K)
    rw [scanRules_append_of_no_match operation pre _ hpre]
    rw [show scanRules operation ((pat, body) :: post)
        = if strContains operation pat then
            (match body.kwargs, body.args with
              | some kw, some ar => Except.ok (ar, kw)
              | none, _ => Except.error ()
              | some _, none => Except.error ())
          else scanRules operation post from rfl]
    rw [hpat, hA, hK]
    simp
  · rw [getCustomArgs, h]
    show scanRules operation rules = Except.ok ([], [])
    rw [scanRules_of_no_match operation rules hnone]

/-- Witness for C4 at the claim's example, discharging the first-match
hypotheses for the generic `describe` rule. -/
theorem C4_custom_args_first_match_witness :
    getCustomArgs exInjected "svc" "describe_other" = Except.ok ([2], [("a", 2)]) :=
  (C4_custom_args_first_match exInjected "svc" "describe_other"
      [("describe_specific", ⟨some [1], some [("a", 1)]⟩)] []
      "describe" ⟨some [2], some [("a", 2)]⟩ [2] [("a", 2)]).2.1
    rfl (by decide) (by decide) rfl rfl

/-- Claim C7 counterexample: the first matching rule omits its keyword-args
entry, and lookup raises `KeyError` (the code subscripts `rule["kwargs"]`
unconditionally) instead of returning the empty default. -/
theorem C7_omitted_entry_counterexample :
    getCustomArgs exOmitted "svc" "describe_thing" = Except.error () := rfl

/-- Claim C7 as amended: for the first matching rule, entries that are present
but empty (or null) yield the empty defaults, but an entry that is omitted
entirely makes lookup raise `KeyError` instead of returning. -/
theorem C7_empty_vs_omitted_entries (injected : List (String × List (String × RuleBody)))
    (service operation : String) (pre post : List (String × RuleBody))
    (pat : String) (body : RuleBody) (A : List Nat) (K : List (String × Nat))
    (h : lookupService injected service = some (pre ++ (pat, body) :: post))
    (hpre : ∀ q ∈ pre, strContains operation q.1 = false)
    (hpat : strContains operation pat = true) :
    (body.args = some A → body.kwargs = some [] →
      getCustomArgs injected service operation = Except.ok (A, []))
    ∧ (body.args = some [] → body.kwargs = some K →
      getCustomArgs injected service operation = Except.ok ([], K))
    ∧ (body.args = none ∨ body.kwargs = none →
      getCustomArgs injected service operation = Except.error ()) := by
  have hbase : getCustomArgs injected service operation
      = scanRules operation ((pat, body) :: post) := by
    rw [getCustomArgs, h]
    show scanRules operation (pre ++ (pat, body) :: post) = _
    rw [scanRules_append_of_no_match operation pre _ hpre]
  have hstep : scanRules operation ((pat, body) :: post)
      = (match body.kwargs, body.args with
          | some kw, some ar => Except.ok (ar, kw)
          | none, _ => Except.error ()
          | some _, none => Except.error ()) := by
    rw [show scanRules operation ((pat, body) :: post)
        = if strContains operation pat then
            (match body.kwargs, body.args with
              | some kw, some ar => Except.ok (ar, kw)
              | none, _ => Except.error ()
              | some _, none => Except.error ())
          else scanRules operation post from rfl]
    rw [hpat]
    simp
  refine ⟨fun hA hK => ?_, fun hA hK => ?_, fun hcase => ?_⟩
  · rw [hbase, hstep, hA, hK]
  · rw [hbase, hstep, hA, hK]
  · rcases hcase with hA | hK
    · rw [hbase, hstep, hA]
      rcases hk : body.kwargs with _ | kw <;> simp
    · rw [hbase, hstep, hK]

/-- Witness for C7 (amended): a rule with present-but-empty entries returns
the empty defaults, a rule omitting its keyword-args entry raises. -/
theorem C7_empty_vs_omitted_entries_witness :
    getCustomArgs [("svc", [("describe", ⟨some [], some []⟩)])] "svc" "describe_thing"
      = Except.ok ([], [])
    ∧ getCustomArgs exOmitted "svc" "describe_thing" = Except.error () := by
  constructor
  · exact (C7_empty_vs_omitted_entries [("svc", [("describe", ⟨some [], some []⟩)])]
      "svc" "describe_thing" [] [] "describe" ⟨some [], some []⟩ [] []
      rfl (by simp) (by decide)).1 rfl rfl
  · exact (C7_empty_vs_omitted_entries exOmitted "svc" "describe_thing"
      [] [] "describe" ⟨some [1], none⟩ [] []
      rfl (by simp) (by decide)).2.2 (Or.inr rfl)

/-! ## Characterization of the aggregation fold of `Service.scan` -/

/-- Boolean equality of strings, from propositional equality. -/
theorem beqT {a b : String} (h : a = b) : (a == b) = true := by simp [h]

/-- Negated boolean equality of strings, from propositional inequality. -/
theorem beqNT {a b : String} (h : ¬a = b) : ¬(a == b) = true := by simp [h]

/-- Dict lookup on the empty dict. -/
theorem aggLookup_nil (name : String) : aggLookup [] name = none := rfl

/-- Dict lookup, one entry at a time. -/
theorem aggLookup_cons (k : String) (a : OperationPermissionsByRegion)
    (rest : List (String × OperationPermissionsByRegion)) (name : String) :
    aggLookup ((k, a) :: rest) name
      = if k == name then some a else aggLookup rest name := by
  simp only [aggLookup]

/-- The two defining equations of `insertAgg`, stated for rewriting. -/
theorem insertAgg_cons (k : String) (a : OperationPermissionsByRegion)
    (rest : List (String × OperationPermissionsByRegion)) (p : OperationPermissions) :
    insertAgg ((k, a) :: rest) p
      = if k == p.name then (k, updAgg p a) :: rest else (k, a) :: insertAgg rest p := by
  simp only [insertAgg]

/-- Effect of one `insertAgg` step on a lookup. -/
theorem aggLookup_insertAgg (m : List (String × OperationPermissionsByRegion))
    (p : OperationPermissions) (name : String) :
    aggLookup (insertAgg m p) name =
      if p.name == name then
        some (updAgg p ((aggLookup m name).getD (emptyAgg name)))
      else aggLookup m name := by
  induction m with
  | nil =>
    by_cases h : p.name = name
    · rw [insertAgg, aggLookup_cons, if_pos (beqT h), if_pos (beqT h), aggLookup_nil, h]
      rfl
    · rw [insertAgg, aggLookup_cons, if_neg (beqNT h), if_neg (beqNT h), aggLookup_nil]
  | cons kv rest ih =>
    obtain ⟨k, a⟩ := kv
    rw [insertAgg_cons]
    by_cases hk : k = p.name
    · rw [if_pos (beqT hk)]
      by_cases hn : k = name
      · have hpn : p.name = name := by rw [← hk, hn]
        rw [aggLookup_cons, if_pos (beqT hn), if_pos (beqT hpn),
          aggLookup_cons, if_pos (beqT hn)]
        rfl
      · have hpn : ¬p.name = name := by rw [← hk]; exact hn
        rw [aggLookup_cons, if_neg (beqNT hn), if_neg (beqNT hpn),
          aggLookup_cons, if_neg (beqNT hn)]
    · rw [if_neg (beqNT hk)]
      by_cases hn : k = name
      · have hpn : ¬p.name = name := by
          intro hc
          exact hk (by rw [hn, hc])
        rw [aggLookup_cons, if_pos (beqT hn), if_neg (beqNT hpn),
          aggLookup_cons, if_pos (beqT hn)]
      · rw [aggLookup_cons, if_neg (beqNT hn), ih,
          aggLookup_cons, if_neg (beqNT hn)]

/-- The whole fold of `Service.scan`, restricted to one operation name:
only the results carrying that name act on its aggregate, in order. -/
theorem aggLookup_foldl (l : List OperationPermissions)
    (acc : List (String × OperationPermissionsByRegion)) (name : String) :
    aggLookup (l.foldl insertAgg acc) name =
      (l.filter (fun p => p.name == name)).foldl
        (fun o p => some (updAgg p (o.getD (emptyAgg name)))) (aggLookup acc name) := by
  induction l generalizing acc with
  | nil => rfl
  | cons p l ih =>
    rw [List.foldl_cons, ih (insertAgg acc p), aggLookup_insertAgg, List.filter_cons]
    by_cases h : (p.name == name) = true
    · rw [if_pos h, if_pos h, List.foldl_cons]
    · rw [if_neg h, if_neg h]

/-- Folding a batch of results into an existing aggregate appends the results
by status and unions in their regions. -/
theorem foldStep_some (name : String) (ps : List OperationPermissions)
    (a : OperationPermissionsByRegion) :
    ps.foldl (fun o p => some (updAgg p (o.getD (emptyAgg name)))) (some a) =
      some { name := a.name
           , regions_tested := a.regions_tested ∪ regionsOf ps
           , succeeded := a.succeeded ++ ps.filter (fun p => p.status == TestStatus.SUCCEEDED)
           , failed := a.failed ++ ps.filter (fun p => p.status == TestStatus.FAILED)
           , errored := a.errored ++ ps.filter (fun p => p.status == TestStatus.ERRORED) } := by
  induction ps generalizing a with
  | nil =>
    obtain ⟨n, rt, s, f, e⟩ := a
    simp [regionsOf]
  | cons p ps ih =>
    rw [List.foldl_cons]
    show ps.foldl _ (some (updAgg p a)) = _
    rw [ih (updAgg p a)]
    cases hs : p.status <;>
      simp [updAgg, hs, regionsOf, List.filter_cons, Finset.insert_union,
        Finset.union_insert]

/-- Singleton union on region sets. -/
theorem singletonUnion (x : String) (s : Finset String) : {x} ∪ s = insert x s := by
  ext y
  simp

/-- Full characterization of the per-operation dict built by `Service.scan`:
the aggregate of an operation name collects exactly the results carrying that
name, split by status, with `regions_tested` their region set. -/
theorem aggLookup_scanAggregate (l : List OperationPermissions) (name : String) :
    aggLookup (scanAggregate l) name =
      if (l.filter (fun p => p.name == name)).isEmpty then none
      else some
        { name := name
        , regions_tested := regionsOf (l.filter (fun p => p.name == name))
        , succeeded := (l.filter (fun p => p.name == name)).filter
            (fun p => p.status == TestStatus.SUCCEEDED)
        , failed := (l.filter (fun p => p.name == name)).filter
            (fun p => p.status == TestStatus.FAILED)
        , errored := (l.filter (fun p => p.name == name)).filter
            (fun p => p.status == TestStatus.ERRORED) } := by
  rw [scanAggregate, aggLookup_foldl l [] name, aggLookup_nil]
  cases hps : l.filter (fun p => p.name == name) with
  | nil => rfl
  | cons p ps =>
    have hp0 : p ∈ l.filter (fun p => p.name == name) := by
      rw [hps]
      exact List.mem_cons_self p ps
    have hp : (p.name == name) = true := (List.mem_filter.mp hp0).2
    have hpn : p.name = name := by simpa using hp
    rw [List.foldl_cons]
    show ps.foldl _ (some (updAgg p (emptyAgg name))) = _
    rw [foldStep_some name ps (updAgg p (emptyAgg name))]
    cases hs : p.status <;>
      simp [updAgg, emptyAgg, hs, regionsOf, List.filter_cons, Finset.insert_union,
        Finset.union_insert, singletonUnion, hpn]

/-- Tested region set of a scan aggregate: the region set of the results
carrying that operation name. -/
theorem testedSet_scanAggregate (l : List OperationPermissions) (name : String) :
    testedSet (scanAggregate l) name
      = regionsOf (l.filter (fun p => p.name == name)) := by
  rw [testedSet, aggLookup_scanAggregate]
  by_cases h : (l.filter (fun p => p.name == name)).isEmpty = true
  · rw [if_pos h]
    rw [List.isEmpty_iff.mp h]
    rfl
  · rw [if_neg h]

/-- Region set that succeeded, characterized on the collected results. -/
theorem succeededSet_scanAggregate (l : List OperationPermissions) (name : String) :
    succeededSet (scanAggregate l) name
      = regionsOf ((l.filter (fun p => p.name == name)).filter
          (fun p => p.status == TestStatus.SUCCEEDED)) := by
  rw [succeededSet, aggLookup_scanAggregate]
  by_cases h : (l.filter (fun p => p.name == name)).isEmpty = true
  · rw [if_pos h]
    rw [List.isEmpty_iff.mp h]
    rfl
  · rw [if_neg h]

/-- Region set that failed, characterized on the collected results. -/
theorem failedSet_scanAggregate (l : List OperationPermissions) (name : String) :
    failedSet (scanAggregate l) name
      = regionsOf ((l.filter (fun p => p.name == name)).filter
          (fun p => p.status == TestStatus.FAILED)) := by
  rw [failedSet, aggLookup_scanAggregate]
  by_cases h : (l.filter (fun p => p.name == name)).isEmpty = true
  · rw [if_pos h]
    rw [List.isEmpty_iff.mp h]
    rfl
  · rw [if_neg h]

/-- Region set that errored, characterized on the collected results. -/
theorem erroredSet_scanAggregate (l : List OperationPermissions) (name : String) :
    erroredSet (scanAggregate l) name
      = regionsOf ((l.filter (fun p => p.name == name)).filter
          (fun p => p.status == TestStatus.ERRORED)) := by
  rw [erroredSet, aggLookup_scanAggregate]
  by_cases h : (l.filter (fun p => p.name == name)).isEmpty = true
  · rw [if_pos h]
    rw [List.isEmpty_iff.mp h]
    rfl
  · rw [if_neg h]

/-! ## Claim C8: aggregation is insensitive to result order -/

/-- Claim C8: folding any two permutations of the same collection of probe
results yields, for every operation name, the same `regions_tested` set and
the same succeeded / failed / errored region sets. -/
theorem C8_aggregation_permutation_invariant (l1 l2 : List OperationPermissions)
    (h : l1.Perm l2) (name : String) :
    testedSet (scanAggregate l1) name = testedSet (scanAggregate l2) name
    ∧ succeededSet (scanAggregate l1) name = succeededSet (scanAggregate l2) name
    ∧ failedSet (scanAggregate l1) name = failedSet (scanAggregate l2) name
    ∧ erroredSet (scanAggregate l1) name = erroredSet (scanAggregate l2) name := by
  have hsub : ∀ q : OperationPermissions → Bool,
      regionsOf ((l1.filter (fun p => p.name == name)).filter q)
        = regionsOf ((l2.filter (fun p => p.name == name)).filter q) := by
    intro q
    exact List.toFinset_eq_of_perm _ _ (((h.filter _).filter q).map _)
  refine ⟨?_, ?_, ?_, ?_⟩
  · rw [testedSet_scanAggregate, testedSet_scanAggregate]
    exact List.toFinset_eq_of_perm _ _ ((h.filter _).map _)
  · rw [succeededSet_scanAggregate, succeededSet_scanAggregate]
    exact hsub _
  · rw [failedSet_scanAggregate, failedSet_scanAggregate]
    exact hsub _
  · rw [erroredSet_scanAggregate, erroredSet_scanAggregate]
    exact hsub _

/-- Witness for C8: the two orders of a concrete success/failure pair. -/
theorem C8_aggregation_permutation_invariant_witness :
    testedSet (scanAggregate [exP, exQ]) "get_x" = testedSet (scanAggregate [exQ, exP]) "get_x"
    ∧ succeededSet (scanAggregate [exP, exQ]) "get_x"
        = succeededSet (scanAggregate [exQ, exP]) "get_x"
    ∧ failedSet (scanAggregate [exP, exQ]) "get_x"
        = failedSet (scanAggregate [exQ, exP]) "get_x"
    ∧ erroredSet (scanAggregate [exP, exQ]) "get_x"
        = erroredSet (scanAggregate [exQ, exP]) "get_x" :=
  C8_aggregation_permutation_invariant [exP, exQ] [exQ, exP]
    (List.Perm.swap exQ exP []) "get_x"

/-! ## Claim C2: the aggregate invariant -/

/-- Every collected result comes from one of the submitted probes. -/
theorem collectResults_mem (xs : List (Except RaisedKind OperationPermissions))
    (l : List OperationPermissions) (h : collectResults xs = Except.ok l)
    (p : OperationPermissions) (hp : p ∈ l) : Except.ok p ∈ xs := by
  induction xs generalizing l with
  | nil =>
    simp only [collectResults] at h
    obtain rfl : ([] : List OperationPermissions) = l := by injection h
    simp at hp
  | cons x rest ih =>
    cases x with
    | ok q =>
      cases hr : collectResults rest with
      | ok l2 =>
        simp only [collectResults, hr] at h
        obtain rfl : q :: l2 = l := by injection h
        rcases List.mem_cons.mp hp with rfl | hp2
        · exact List.mem_cons_self ..
        · exact List.mem_cons_of_mem _ (ih l2 hr hp2)
      | error e =>
        simp only [collectResults, hr] at h
        exact Except.noConfusion h
    | error k =>
      cases k with
      | connectTimeout =>
        simp only [collectResults] at h
        exact List.mem_cons_of_mem _ (ih l h hp)
      | endpointConnection =>
        simp only [collectResults] at h
        exact List.mem_cons_of_mem _ (ih l h hp)
      | attributeError =>
        simp only [collectResults] at h
        exact Except.noConfusion h
      | otherException =>
        simp only [collectResults] at h
        exact List.mem_cons_of_mem _ (ih l h hp)

/-- Every result collected for one client comes from probing one of the
operations against that client. -/
theorem testAllOperations_mem (invoke : String → String → InvokeResult)
    (operations : List String) (clientRegion : String)
    (l : List OperationPermissions)
    (h : testAllOperations invoke operations clientRegion = Except.ok l)
    (p : OperationPermissions) (hp : p ∈ l) :
    ∃ op ∈ operations,
      testPermission op clientRegion (invoke op clientRegion) = Except.ok p := by
  have hm := collectResults_mem _ l h p hp
  rcases List.mem_map.mp hm with ⟨op, hop, heq⟩
  exact ⟨op, hop, heq⟩

/-- Every result gathered by a scan comes from probing one of the operations
against one of the regional clients. -/
theorem scanCollect_mem (invoke : String → String → InvokeResult)
    (regions operations : List String) (l : List OperationPermissions)
    (h : scanCollect invoke regions operations = Except.ok l)
    (p : OperationPermissions) (hp : p ∈ l) :
    ∃ r ∈ regions, ∃ op ∈ operations,
      testPermission op r (invoke op r) = Except.ok p := by
  induction regions generalizing l with
  | nil =>
    simp only [scanCollect] at h
    obtain rfl : ([] : List OperationPermissions) = l := by injection h
    simp at hp
  | cons r rest ih =>
    cases h1 : testAllOperations invoke operations r with
    | error e =>
      simp only [scanCollect, h1] at h
      exact Except.noConfusion h
    | ok l1 =>
      cases h2 : scanCollect invoke rest operations with
      | error e =>
        simp only [scanCollect, h1, h2] at h
        exact Except.noConfusion h
      | ok l2 =>
        simp only [scanCollect, h1, h2] at h
        obtain rfl : l1 ++ l2 = l := by injection h
        rcases List.mem_append.mp hp with hp1 | hp2
        · obtain ⟨op, hop, he⟩ := testAllOperations_mem invoke operations r l1 h1 p hp1
          exact ⟨r, List.mem_cons_self .., op, hop, he⟩
        · obtain ⟨r2, hr2, op, hop, he⟩ := ih l2 h2 hp2
          exact ⟨r2, List.mem_cons_of_mem _ hr2, op, hop, he⟩

/-- A successfully classified probe result records the probed operation name
and the client's region. -/
theorem testPermission_ok_eq (operation clientRegion : String) (call : InvokeResult)
    (p : OperationPermissions)
    (h : testPermission operation clientRegion call = Except.ok p) :
    p.name = operation ∧ p.region = clientRegion := by
  cases call with
  | ok resp =>
    simp only [testPermission] at h
    obtain rfl : _ = p := by injection h
    exact ⟨rfl, rfl⟩
  | paramValidationError =>
    simp only [testPermission] at h
    obtain rfl : _ = p := by injection h
    exact ⟨rfl, rfl⟩
  | noAuthTokenError =>
    simp only [testPermission] at h
    obtain rfl : _ = p := by injection h
    exact ⟨rfl, rfl⟩
  | clientError code =>
    simp only [testPermission] at h
    split at h <;>
      (obtain rfl : _ = p := by injection h
       exact ⟨rfl, rfl⟩)
  | raised k =>
    simp only [testPermission] at h
    exact Except.noConfusion h

/-- Since each (operation, region) pair is probed through the same client
call, two gathered results agreeing on operation name and region are the same
result. -/
theorem scanCollect_deterministic (invoke : String → String → InvokeResult)
    (regions operations : List String) (l : List OperationPermissions)
    (h : scanCollect invoke regions operations = Except.ok l)
    (p q : OperationPermissions) (hp : p ∈ l) (hq : q ∈ l)
    (hn : p.name = q.name) (hr : p.region = q.region) : p = q := by
  obtain ⟨r1, _, op1, _, h1⟩ := scanCollect_mem invoke regions operations l h p hp
  obtain ⟨r2, _, op2, _, h2⟩ := scanCollect_mem invoke regions operations l h q hq
  obtain ⟨e1n, e1r⟩ := testPermission_ok_eq _ _ _ _ h1
  obtain ⟨e2n, e2r⟩ := testPermission_ok_eq _ _ _ _ h2
  have hop : op1 = op2 := by rw [← e1n, ← e2n, hn]
  have hreg : r1 = r2 := by rw [← e1r, ← e2r, hr]
  subst hop
  subst hreg
  have := h1.symm.trans h2
  injection this

/-- The region set of a result list splits along the three statuses. -/
theorem regionsOf_partition (ps : List OperationPermissions) :
    regionsOf ps
      = regionsOf (ps.filter (fun p => p.status == TestStatus.SUCCEEDED))
        ∪ regionsOf (ps.filter (fun p => p.status == TestStatus.FAILED))
        ∪ regionsOf (ps.filter (fun p => p.status == TestStatus.ERRORED)) := by
  ext r
  simp only [regionsOf, List.mem_toFinset, List.mem_map, List.mem_filter,
    Finset.mem_union]
  constructor
  · rintro ⟨p, hp, rfl⟩
    cases hs : p.status
    · exact Or.inl (Or.inl ⟨p, ⟨hp, by simp [hs]⟩, rfl⟩)
    · exact Or.inl (Or.inr ⟨p, ⟨hp, by simp [hs]⟩, rfl⟩)
    · exact Or.inr ⟨p, ⟨hp, by simp [hs]⟩, rfl⟩
  · rintro ((⟨p, ⟨hp, _⟩, rfl⟩ | ⟨p, ⟨hp, _⟩, rfl⟩) | ⟨p, ⟨hp, _⟩, rfl⟩) <;>
      exact ⟨p, hp, rfl⟩

/-- With at most one result per region in a list, the region sets of two
different statuses are disjoint. -/
theorem regionsOf_filter_disjoint (ps : List OperationPermissions)
    (hdet : ∀ p ∈ ps, ∀ q ∈ ps, p.region = q.region → p = q)
    (s1 s2 : TestStatus) (hs : s1 ≠ s2) :
    Disjoint (regionsOf (ps.filter (fun p => p.status == s1)))
      (regionsOf (ps.filter (fun p => p.status == s2))) := by
  rw [Finset.disjoint_left]
  intro r h1 h2
  simp only [regionsOf, List.mem_toFinset, List.mem_map, List.mem_filter] at h1 h2
  obtain ⟨p, ⟨hp, hps1⟩, rfl⟩ := h1
  obtain ⟨q, ⟨hq, hqs2⟩, hqr⟩ := h2
  obtain rfl : q = p := hdet q hq p hp hqr
  rw [beq_iff_eq] at hps1 hqs2
  exact hs (hps1 ▸ hqs2 ▸ rfl)

/-- Claim C2: every per-operation aggregate a service scan returns satisfies
`regions_tested = succeeded ∪ failed ∪ errored` (as region sets) with the
three outcome region sets pairwise disjoint. -/
theorem C2_aggregate_invariant (invoke : String → String → InvokeResult)
    (regions operations : List String)
    (m : List (String × OperationPermissionsByRegion))
    (hm : scan invoke regions operations = Except.ok m)
    (name : String) (a : OperationPermissionsByRegion)
    (ha : aggLookup m name = some a) :
    a.regions_tested = regionsOf a.succeeded ∪ regionsOf a.failed ∪ regionsOf a.errored
    ∧ Disjoint (regionsOf a.succeeded) (regionsOf a.failed)
    ∧ Disjoint (regionsOf a.succeeded) (regionsOf a.errored)
    ∧ Disjoint (regionsOf a.failed) (regionsOf a.errored) := by
  cases hl : scanCollect invoke regions operations with
  | error e =>
    simp only [scan, hl] at hm
    exact Except.noConfusion hm
  | ok l =>
    simp only [scan, hl] at hm
    obtain rfl : scanAggregate l = m := by injection hm
    rw [aggLookup_scanAggregate] at ha
    by_cases hps : (l.filter (fun p => p.name == name)).isEmpty = true
    · rw [if_pos hps] at ha
      exact Option.noConfusion ha
    · rw [if_neg hps] at ha
      obtain rfl : _ = a := by injection ha
      have hdet : ∀ p ∈ l.filter (fun p => p.name == name),
          ∀ q ∈ l.filter (fun p => p.name == name), p.region = q.region → p = q := by
        intro p hp q hq hreg
        have hp2 := List.mem_filter.mp hp
        have hq2 := List.mem_filter.mp hq
        refine scanCollect_deterministic invoke regions operations l hl p q
          hp2.1 hq2.1 ?_ hreg
        rw [beq_iff_eq] at hp2 hq2
        rw [hp2.2, hq2.2]
      refine ⟨regionsOf_partition _, ?_, ?_, ?_⟩
      · exact regionsOf_filter_disjoint _ hdet _ _ (by decide)
      · exact regionsOf_filter_disjoint _ hdet _ _ (by decide)
      · exact regionsOf_filter_disjoint _ hdet _ _ (by decide)

/-- Witness for C2 at a concrete scan, discharging both hypotheses. -/
theorem C2_aggregate_invariant_witness :
    exAgg.regions_tested
        = regionsOf exAgg.succeeded ∪ regionsOf exAgg.failed ∪ regionsOf exAgg.errored
    ∧ Disjoint (regionsOf exAgg.succeeded) (regionsOf exAgg.failed)
    ∧ Disjoint (regionsOf exAgg.succeeded) (regionsOf exAgg.errored)
    ∧ Disjoint (regionsOf exAgg.failed) (regionsOf exAgg.errored) :=
  C2_aggregate_invariant invokeOkX ["us-east-1"] ["get_x"]
    [("get_x", exAgg)] rfl "get_x" exAgg (by decide)

/-! ## Claim C9: the report formatter -/

/-- Deduplicating a list does not change the finite set of its elements. -/
theorem dedup_toFinset (l : List String) : l.dedup.toFinset = l.toFinset := by
  ext x
  simp [List.mem_dedup]

/-- The per-marker block of `pretty_print_scan` produces exactly the lines the
specification describes. -/
theorem markerBlock_eq_spec (operation marker : String)
    (tests : List OperationPermissions) (tested : Finset String) :
    markerBlock operation marker tests tested
      = specOutcomeLines operation marker tests tested := by
  rw [markerBlock, specOutcomeLines]
  have hfin : ((tests.map (fun t => t.region)).dedup).toFinset = regionsOf tests := by
    rw [dedup_toFinset]
    rfl
  have hempty : ((tests.map (fun t => t.region)).dedup).isEmpty = true
      ↔ regionsOf tests = ∅ := by
    rw [List.isEmpty_iff, List.dedup_eq_nil, regionsOf, List.toFinset_eq_empty_iff]
  by_cases h1 : regionsOf tests = ∅
  · rw [if_pos (hempty.mpr h1), if_pos h1]
  · rw [if_neg (fun hc => h1 (hempty.mp hc)), if_neg h1, hfin]

/-- The per-operation block of `pretty_print_scan` produces exactly the lines
the specification describes, the non-success markers appearing iff they are
requested (`only_hits = false`). -/
theorem prettyEntry_eq_spec (kv : String × OperationPermissionsByRegion)
    (only_hits : Bool) :
    prettyEntry kv only_hits
      = specOutcomeLines kv.1 "+" kv.2.succeeded kv.2.regions_tested
        ++ (if !only_hits then
              specOutcomeLines kv.1 "-" kv.2.failed kv.2.regions_tested
                ++ specOutcomeLines kv.1 "!" kv.2.errored kv.2.regions_tested
            else []) := by
  cases only_hits <;>
    simp [prettyEntry, markerBlock_eq_spec]

/-- Claim C9: for every scan report and flag setting, the formatter emits per
operation and requested marker (`+` always; `-` and `!` only when
non-successes are requested) exactly one line when the outcome region set is
non-empty — the `All Regions` form when it equals `regions_tested`, else the
comma-joined region list — and no line when it is empty; i.e. it coincides
with the formatter the specification describes. -/
theorem C9_pretty_print_matches_spec
    (report : List (String × OperationPermissionsByRegion)) (only_hits : Bool) :
    prettyPrintScan report only_hits = specFormat report (!only_hits) := by
  induction report with
  | nil => rfl
  | cons kv rest ih =>
    rw [prettyPrintScan, specFormat, List.flatMap_cons, List.flatMap_cons]
    rw [prettyPrintScan, specFormat] at ih
    rw [ih, prettyEntry_eq_spec]
